import Mathlib

/-!
Shallow embedding of the flappy-bird game (src/game.py) and proofs about it.

Conventions:
* Python floats are modelled by `ℚ` (every quantity the program manipulates is a
  dyadic rational of the form k/2, exactly representable in IEEE doubles for the
  magnitudes that occur, so rational arithmetic coincides with the float
  arithmetic of the source).
* Python ints are modelled by `ℤ` (or `ℕ` for the non-negative counters).
* Asset dimensions (image widths/heights) are unknown at analysis time and are
  passed as integer parameters.
* `random.randrange(50, 450)` is modelled by an integer input constrained to
  `[50, 450)` where a claim needs that guarantee.
-/

set_option maxRecDepth 4000

/-- State of the `Bird` class: x, y, tilt, tick_count, vel, height (jump
reference), img_count and img (animation frame index into `IMGS`). -/
structure Bird where
  x : ℤ
  y : ℚ
  tilt : ℤ
  tick_count : ℕ
  vel : ℚ
  height : ℚ
  img_count : ℕ
  img : ℕ
  deriving DecidableEq, Repr

/-- `Bird.__init__(x, y)`. -/
def birdInit (x : ℤ) (y : ℚ) : Bird :=
  { x := x, y := y, tilt := 0, tick_count := 0, vel := 0, height := y
    img_count := 0, img := 0 }

/-- `Bird.jump`: vel := -10.5, tick_count := 0, height := y. -/
def birdJump (b : Bird) : Bird :=
  { b with vel := -(21/2), tick_count := 0, height := b.y }

/-- The raw kinematic displacement `self.vel * self.tick_count + 1.5 *
self.tick_count ** 2` computed in `Bird.move` (with the already-incremented
tick count). -/
def dispRaw (b : Bird) : ℚ :=
  b.vel * ((b.tick_count : ℚ) + 1) + 3/2 * ((b.tick_count : ℚ) + 1) ^ 2

/-- The displacement after the terminal-velocity clamp of `Bird.move`
(`displacement >= 16` becomes `16`). -/
def dispClamp (b : Bird) : ℚ :=
  if 16 ≤ dispRaw b then 16 else dispRaw b

/-- The final displacement of `Bird.move`: the clamped value, with a further
`-2` applied when it is negative. -/
def disp (b : Bird) : ℚ :=
  if dispClamp b < 0 then dispClamp b - 2 else dispClamp b

/-- `Bird.move`: increment tick_count, add the displacement to y, then update
the tilt (snap up to 25 while rising or still within 50 units of the jump
reference, otherwise fall by 20 while above -90). -/
def birdMove (b : Bird) : Bird :=
  { b with
    tick_count := b.tick_count + 1
    y := b.y + disp b
    tilt :=
      if disp b < 0 ∨ b.y + disp b < b.height + 50 then
        if b.tilt < 25 then 25 else b.tilt
      else
        if -90 < b.tilt then b.tilt - 20 else b.tilt }

/-- Animation state manipulated by `Bird.draw`: the frame counter `img_count`
and the index of the sprite currently held in `img`. -/
structure DrawState where
  imgCount : ℕ
  img : ℕ
  deriving DecidableEq, Repr

/-- The frame-selection chain of `Bird.draw` without the steep-dive override:
increment `img_count`, then pick the sprite by comparing against multiples of
`ANIMATION_TIME = 5`, resetting the counter when it reaches `5 * 4 + 1 = 21`.
A counter value of 20 matches none of the branches and leaves the sprite
unchanged. -/
def drawStepP (s : DrawState) : DrawState :=
  let c := s.imgCount + 1
  if c < 5 then ⟨c, 0⟩
  else if c < 10 then ⟨c, 1⟩
  else if c < 15 then ⟨c, 2⟩
  else if c < 20 then ⟨c, 1⟩
  else if c = 21 then ⟨0, 0⟩
  else ⟨c, s.img⟩

/-- `Bird.draw`'s effect on the animation state: the frame-selection chain,
overridden to sprite 1 with `img_count = ANIMATION_TIME * 2 = 10` whenever
`tilt <= -80`. -/
def drawStep (tilt : ℤ) (s : DrawState) : DrawState :=
  if tilt ≤ -80 then ⟨10, 1⟩ else drawStepP s

/-- The mutation `Bird.draw` performs on the bird object (the blitting has no
effect on program state). -/
def birdDraw (b : Bird) : Bird :=
  let s := drawStep b.tilt ⟨b.img_count, b.img⟩
  { b with img_count := s.imgCount, img := s.img }

/-- State of the `Pipe` class. `GAP = 200`, `VEL = 5`. The pipe image height
(`PIPE_TOP.get_height()`) and width are asset data, passed as parameters where
needed. -/
structure Pipe where
  x : ℤ
  height : ℤ
  top : ℤ
  bottom : ℤ
  passed : Bool
  deriving DecidableEq, Repr

/-- `Pipe.__init__(x)` followed by `Pipe.set_height`, with `h` the value
returned by `random.randrange(50, 450)` and `pipeH` the height of the (flipped)
top pipe image: `top = height - PIPE_TOP.get_height()`, `bottom = height +
GAP`. -/
def mkPipe (pipeH x h : ℤ) : Pipe :=
  { x := x, height := h, top := h - pipeH, bottom := h + 200, passed := false }

/-- `Pipe.move`: `x -= VEL`. -/
def pipeMove (p : Pipe) : Pipe :=
  { p with x := p.x - 5 }

/-- The pass test of the game loop: `not pipe.passed and pipe.x < bird.x`. -/
def firstPass (bx : ℤ) (p : Pipe) : Bool :=
  !p.passed && decide (p.x < bx)

/-- One loop iteration's effect on a single pipe: mark it passed when the pass
test fires, then `pipe.move()`. -/
def tickPipe (bx : ℤ) (p : Pipe) : Pipe :=
  pipeMove { p with passed := p.passed || decide (p.x < bx) }

/-- State of the `Base` class; the tile width `BASE_IMG.get_width()` is asset
data, passed as a parameter `W`. -/
structure BaseState where
  y : ℤ
  x1 : ℤ
  x2 : ℤ
  deriving DecidableEq, Repr

/-- `Base.__init__(y)`: `x1 = 0`, `x2 = WIDTH`. -/
def baseInit (W y : ℤ) : BaseState :=
  { y := y, x1 := 0, x2 := W }

/-- `Base.move`: shift both segments left by `VEL = 5`, then wrap whichever
segment's right edge has crossed `x = 0` to just past the other segment (the
second test reads the already-updated `x1`, as in the source). -/
def baseMove (W : ℤ) (s : BaseState) : BaseState :=
  let a := s.x1 - 5
  let b := s.x2 - 5
  let a2 := if a + W < 0 then b + W else a
  let b2 := if b + W < 0 then a2 + W else b
  { y := s.y, x1 := a2, x2 := b2 }

/-- The state owned by `main`: the bird, the pipe list, the score and the
floor. -/
structure GameState where
  bird : Bird
  pipes : List Pipe
  score : ℕ
  base : BaseState
  deriving DecidableEq, Repr

/-- The state just before the first loop iteration of `main`: `Bird(230, 350)`,
`Base(730)`, `pipes = [Pipe(600)]`, `score = 0`; `h0` is the random height
sampled by the initial pipe. -/
def gameInit (pipeH W h0 : ℤ) : GameState :=
  { bird := birdInit 230 350
    pipes := [mkPipe pipeH 600 h0]
    score := 0
    base := baseInit W 730 }

/-- One iteration of the `while run` loop of `main` (quit handling and the
discarded collision / floor-contact tests aside): `bird.move()` is commented
out, so the bird is only touched by `bird.draw` inside `draw_window`; every
pipe is checked for retirement (`pipe.x + pipe_width < 0`, on its pre-move x)
and for a first pass, marked and moved; if any pipe was first passed the score
is incremented once and a single `Pipe(600)` (with sampled height `newH`) is
appended; retired pipes are then removed; finally `base.move()` runs.  The
retirement flag is carried alongside each processed pipe, mirroring the `rem`
list of the source. -/
def gameTick (pipeW pipeH W newH : ℤ) (s : GameState) : GameState :=
  let bx := s.bird.x
  let addPipe := s.pipes.any (firstPass bx)
  let marked := s.pipes.map (fun p => (tickPipe bx p, decide (p.x + pipeW < 0)))
  { bird := birdDraw s.bird
    pipes := (marked.filter (fun t => !t.2)).map Prod.fst
        ++ (if addPipe then [mkPipe pipeH 600 newH] else [])
    score := s.score + (if addPipe then 1 else 0)
    base := baseMove W s.base }

/-- A whole run of the game loop, one entry of `hs` (the height sampled for the
pipe spawned that tick, used only when a pipe is actually appended) per
iteration. -/
def runGame (pipeW pipeH W h0 : ℤ) (hs : List ℤ) : GameState :=
  hs.foldl (fun s h => gameTick pipeW pipeH W h s) (gameInit pipeH W h0)

/-- The two operations of the bird API exercised by a game (the loop of this
version calls neither, but the class exposes both). -/
inductive BirdOp where
  | jmp : BirdOp
  | mv : BirdOp
  deriving DecidableEq, Repr

/-- Interpretation of a bird operation. -/
def birdApply : BirdOp → Bird → Bird
  | BirdOp.jmp => birdJump
  | BirdOp.mv => birdMove

/-- A bird after an arbitrary sequence of `jump` / `move` calls. -/
def birdRun (ops : List BirdOp) (b : Bird) : Bird :=
  ops.foldl (fun b o => birdApply o b) b

/-- A pixel mask (`pygame.mask.from_surface`): the list of opaque pixel
coordinates. -/
abbrev Mask : Type := List (ℤ × ℤ)

/-- `Mask.overlap(other, offset)` as a Boolean: the masks intersect when some
opaque pixel `p` of `self` coincides with an opaque pixel `q` of `other`
shifted by `offset`. -/
def maskOverlap (a b : Mask) (off : ℤ × ℤ) : Bool :=
  a.any fun p => b.any fun q => decide (q.1 + off.1 = p.1 ∧ q.2 + off.2 = p.2)

/-- Python 3 `round` on a rational: nearest integer, ties to even. -/
def pyRound (q : ℚ) : ℤ :=
  let f := ⌊q⌋
  let r := q - f
  if r < 1/2 then f
  else if 1/2 < r then f + 1
  else if f % 2 = 0 then f else f + 1

/-- Two axis-aligned rectangles (top-left corner and size each) share interior
points. -/
def rectsOverlap (x1 y1 w1 h1 x2 y2 w2 h2 : ℤ) : Prop :=
  x1 < x2 + w2 ∧ x2 < x1 + w1 ∧ y1 < y2 + h2 ∧ y2 < y1 + h1

/-- `Pipe.collide(bird)`: test the bird mask against the top pipe mask at
offset `(pipe.x - bird.x, pipe.top - round(bird.y))` and against the bottom
pipe mask at `(pipe.x - bird.x, pipe.bottom - round(bird.y))`; collide exactly
when either overlaps. -/
def pipeCollide (bm tm botm : Mask) (b : Bird) (p : Pipe) : Bool :=
  maskOverlap bm tm (p.x - b.x, p.top - pyRound b.y)
    || maskOverlap bm botm (p.x - b.x, p.bottom - pyRound b.y)

/-- The tilt values reachable once the bird has tilted at least once: snapping
sets 25 and falling subtracts 20 while above -90, so only these seven values
occur. -/
def TiltOK (t : ℤ) : Prop :=
  t = 25 ∨ t = 5 ∨ t = -15 ∨ t = -35 ∨ t = -55 ∨ t = -75 ∨ t = -95

/-- Inductive invariant of a bird under arbitrary `jump` / `move` sequences:
either the tilt is one of the seven post-snap values, or the bird is still in
the fresh state of tilt 0, reset tick counter, `y = height` and a velocity of 0
(initial) or -10.5 (just after a jump) - in which case the next `move` is
guaranteed to take the upward branch. -/
def BirdInv (b : Bird) : Prop :=
  TiltOK b.tilt ∨
    (b.tilt = 0 ∧ b.tick_count = 0 ∧ b.y = b.height ∧ (b.vel = 0 ∨ b.vel = -(21/2)))

/-- Inductive invariant of the pipe list along the actual game run (bird fixed
at x = 230): every x is a multiple of 5 and at most 600, unpassed pipes sit at
x >= 225, and the x coordinates are pairwise distinct. -/
def PipesInv (l : List Pipe) : Prop :=
  (∀ p ∈ l, 5 ∣ p.x ∧ p.x ≤ 600 ∧ (p.passed = false → 225 ≤ p.x)) ∧
    l.Pairwise (fun p q => p.x ≠ q.x)

/-- Invariant of the floor: the two segment offsets differ by exactly the tile
width and neither has fallen further than one tile width left of the origin. -/
def BaseInv (W : ℤ) (s : BaseState) : Prop :=
  (s.x2 - s.x1 = W ∨ s.x1 - s.x2 = W) ∧ -W ≤ s.x1 ∧ -W ≤ s.x2

/-- The kinematic portion of the bird state (everything except the animation
fields `img_count` / `img`): x, y, tilt, tick_count, vel, height. -/
def birdKin (b : Bird) : ℤ × ℚ × ℤ × ℕ × ℚ × ℚ :=
  (b.x, b.y, b.tilt, b.tick_count, b.vel, b.height)

/-- C1: each call to `Bird.move` adds `min 16 raw` to `y` when the raw
displacement `vel*(tick_count+1) + 1.5*(tick_count+1)^2` is non-negative and
`raw - 2` when it is negative, and leaves `vel` (and the other jump data)
unchanged. -/
theorem birdMove_displacement (b : Bird) :
    (birdMove b).y =
      b.y +
        (if 0 ≤ b.vel * ((b.tick_count : ℚ) + 1) + 3/2 * ((b.tick_count : ℚ) + 1) ^ 2 then
          min 16 (b.vel * ((b.tick_count : ℚ) + 1) + 3/2 * ((b.tick_count : ℚ) + 1) ^ 2)
        else
          b.vel * ((b.tick_count : ℚ) + 1) + 3/2 * ((b.tick_count : ℚ) + 1) ^ 2 - 2)
    ∧ (birdMove b).vel = b.vel
    ∧ (birdMove b).tick_count = b.tick_count + 1
    ∧ (birdMove b).height = b.height := by
  refine ⟨?_, rfl, rfl, rfl⟩
  show b.y + disp b = _
  unfold disp dispClamp dispRaw
  set r := b.vel * ((b.tick_count : ℚ) + 1) + 3/2 * ((b.tick_count : ℚ) + 1) ^ 2 with hr
  by_cases h16 : 16 ≤ r
  · have h0 : (0:ℚ) ≤ r := le_trans (by norm_num) h16
    simp only [if_pos h16, if_pos h0]
    rw [min_eq_left h16]
    norm_num
  · simp only [if_neg h16]
    by_cases hneg : r < 0
    · have : ¬ (0:ℚ) ≤ r := not_le.mpr hneg
      simp only [if_pos hneg, if_neg this]
    · have h0 : (0:ℚ) ≤ r := not_lt.mp hneg
      simp only [if_neg hneg, if_pos h0]
      rw [min_eq_right (le_of_not_le h16)]

lemma birdInv_init (x : ℤ) (y : ℚ) : BirdInv (birdInit x y) :=
  Or.inr ⟨rfl, rfl, rfl, Or.inl rfl⟩

lemma birdInv_jump {b : Bird} (h : BirdInv b) : BirdInv (birdJump b) := by
  rcases h with h | ⟨h0, _, _, _⟩
  · exact Or.inl h
  · exact Or.inr ⟨h0, rfl, rfl, Or.inr rfl⟩

lemma birdInv_move {b : Bird} (h : BirdInv b) : BirdInv (birdMove b) := by
  left
  show TiltOK (if disp b < 0 ∨ b.y + disp b < b.height + 50 then
      if b.tilt < 25 then 25 else b.tilt
    else if -90 < b.tilt then b.tilt - 20 else b.tilt)
  rcases h with h | ⟨h0, htc, hyh, hv⟩
  · rcases h with h | h | h | h | h | h | h <;>
      unfold TiltOK <;> split_ifs <;> omega
  · have hcond : disp b < 0 ∨ b.y + disp b < b.height + 50 := by
      rcases hv with hv | hv
      · have hdisp : disp b = 3/2 := by
          norm_num [disp, dispClamp, dispRaw, htc, hv]
        refine Or.inr ?_
        rw [hdisp, hyh]
        linarith
      · have hdisp : disp b = -11 := by
          norm_num [disp, dispClamp, dispRaw, htc, hv]
        refine Or.inl ?_
        rw [hdisp]
        norm_num
    rw [if_pos hcond, if_pos (by omega : b.tilt < 25)]
    exact Or.inl rfl

lemma birdInv_run (ops : List BirdOp) {b : Bird} (h : BirdInv b) :
    BirdInv (birdRun ops b) := by
  induction ops generalizing b with
  | nil => exact h
  | cons o t ih =>
    show BirdInv (birdRun t (birdApply o b))
    apply ih
    cases o with
    | jmp => exact birdInv_jump h
    | mv => exact birdInv_move h

lemma birdInv_tilt {b : Bird} (h : BirdInv b) : -95 ≤ b.tilt ∧ b.tilt ≤ 25 := by
  rcases h with h | ⟨h0, _⟩
  · rcases h with h | h | h | h | h | h | h <;> omega
  · omega

/-- C2 (amended): under every sequence of `jump` / `move` calls from a freshly
constructed bird the tilt stays within [-95, 25]: each falling `move`
subtracts 20 only while the tilt is still above -90, so the tilt can end one
step below -90 (at -95) but no lower. -/
theorem tilt_range_amended (x : ℤ) (y : ℚ) (ops : List BirdOp) :
    -95 ≤ (birdRun ops (birdInit x y)).tilt ∧ (birdRun ops (birdInit x y)).tilt ≤ 25 :=
  birdInv_tilt (birdInv_run ops (birdInv_init x y))

/-- C2 (counterexample): ten consecutive `Bird.move` calls on `Bird(230, 350)`
drive the tilt to -95, which lies outside the claimed range [-90, 25]; the
falling branch does take the tilt below -90. -/
theorem tilt_below_neg90_cex :
    (birdRun (List.replicate 10 BirdOp.mv) (birdInit 230 350)).tilt = -95 ∧
      ¬(-90 ≤ (birdRun (List.replicate 10 BirdOp.mv) (birdInit 230 350)).tilt) := by
  have h1 : birdMove ⟨230, 350, 0, 0, 0, 350, 0, 0⟩ = ⟨230, 703/2, 25, 1, 0, 350, 0, 0⟩ := by
    norm_num [birdMove, disp, dispClamp, dispRaw, Bird.mk.injEq]
  have h2 : birdMove ⟨230, 703/2, 25, 1, 0, 350, 0, 0⟩ = ⟨230, 715/2, 25, 2, 0, 350, 0, 0⟩ := by
    norm_num [birdMove, disp, dispClamp, dispRaw, Bird.mk.injEq]
  have h3 : birdMove ⟨230, 715/2, 25, 2, 0, 350, 0, 0⟩ = ⟨230, 371, 25, 3, 0, 350, 0, 0⟩ := by
    norm_num [birdMove, disp, dispClamp, dispRaw, Bird.mk.injEq]
  have h4 : birdMove ⟨230, 371, 25, 3, 0, 350, 0, 0⟩ = ⟨230, 387, 25, 4, 0, 350, 0, 0⟩ := by
    norm_num [birdMove, disp, dispClamp, dispRaw, Bird.mk.injEq]
  have h5 : birdMove ⟨230, 387, 25, 4, 0, 350, 0, 0⟩ = ⟨230, 403, 5, 5, 0, 350, 0, 0⟩ := by
    norm_num [birdMove, disp, dispClamp, dispRaw, Bird.mk.injEq]
  have h6 : birdMove ⟨230, 403, 5, 5, 0, 350, 0, 0⟩ = ⟨230, 419, -15, 6, 0, 350, 0, 0⟩ := by
    norm_num [birdMove, disp, dispClamp, dispRaw, Bird.mk.injEq]
  have h7 : birdMove ⟨230, 419, -15, 6, 0, 350, 0, 0⟩ = ⟨230, 435, -35, 7, 0, 350, 0, 0⟩ := by
    norm_num [birdMove, disp, dispClamp, dispRaw, Bird.mk.injEq]
  have h8 : birdMove ⟨230, 435, -35, 7, 0, 350, 0, 0⟩ = ⟨230, 451, -55, 8, 0, 350, 0, 0⟩ := by
    norm_num [birdMove, disp, dispClamp, dispRaw, Bird.mk.injEq]
  have h9 : birdMove ⟨230, 451, -55, 8, 0, 350, 0, 0⟩ = ⟨230, 467, -75, 9, 0, 350, 0, 0⟩ := by
    norm_num [birdMove, disp, dispClamp, dispRaw, Bird.mk.injEq]
  have h10 : birdMove ⟨230, 467, -75, 9, 0, 350, 0, 0⟩ = ⟨230, 483, -95, 10, 0, 350, 0, 0⟩ := by
    norm_num [birdMove, disp, dispClamp, dispRaw, Bird.mk.injEq]
  have hrun : birdRun (List.replicate 10 BirdOp.mv) (birdInit 230 350) =
      ⟨230, 483, -95, 10, 0, 350, 0, 0⟩ := by
    show birdRun (List.replicate 10 BirdOp.mv) ⟨230, 350, 0, 0, 0, 350, 0, 0⟩ = _
    simp only [birdRun, List.replicate, List.foldl, birdApply]
    rw [h1, h2, h3, h4, h5, h6, h7, h8, h9, h10]
  rw [hrun]
  exact ⟨rfl, by norm_num⟩

/-- C5 (counterexample): the animation is not a 20-tick cycle of 5 ticks per
frame: with tilt 0 (no steep-dive override) the 5th `Bird.draw` call already
shows frame 1 (a 5-ticks-per-frame schedule starting at frame 0 would still
show frame 0), the state after 20 calls is not back to the initial state, and
the frame after 25 calls differs from the frame after 5 calls, so the frame
sequence has no period of 20 ticks. -/
theorem anim_period20_cex :
    ((drawStep 0)^[5] ⟨0, 0⟩).img = 1 ∧
      (drawStep 0)^[20] ⟨0, 0⟩ ≠ (⟨0, 0⟩ : DrawState) ∧
      ((drawStep 0)^[25] ⟨0, 0⟩).img ≠ ((drawStep 0)^[5] ⟨0, 0⟩).img := by
  decide

/-- C5 (amended): the frame index stays in {0, 1, 2}, and absent the
steep-dive override (tilt above -80) the animation state is periodic with
period 21 ticks, not 20: frame 0 for 4 ticks, frame 1 for 5, frame 2 for 5,
frame 1 for 6 (the counter value 20 matches no branch and repeats frame 1),
then frame 0 again on tick 21 when the counter resets. -/
theorem anim_frames_amended :
    (∀ (t : ℤ) (s : DrawState), s.img ≤ 2 → (drawStep t s).img ≤ 2)
    ∧ ∀ t : ℤ, -80 < t →
        (drawStep t)^[21] ⟨0, 0⟩ = (⟨0, 0⟩ : DrawState)
        ∧ (∀ n : ℕ, (drawStep t)^[n + 21] ⟨0, 0⟩ = (drawStep t)^[n] ⟨0, 0⟩)
        ∧ ((drawStep t)^[4] ⟨0, 0⟩).img = 0
        ∧ ((drawStep t)^[9] ⟨0, 0⟩).img = 1
        ∧ ((drawStep t)^[14] ⟨0, 0⟩).img = 2
        ∧ ((drawStep t)^[20] ⟨0, 0⟩).img = 1
        ∧ ((drawStep t)^[21] ⟨0, 0⟩).img = 0 := by
  constructor
  · intro t s hs
    unfold drawStep drawStepP
    dsimp only
    split_ifs <;> simp_all
  · intro t ht
    have hts : drawStep t = drawStepP := by
      funext s
      unfold drawStep
      rw [if_neg (by omega : ¬ t ≤ -80)]
    rw [hts]
    refine ⟨by decide, ?_, by decide, by decide, by decide, by decide, by decide⟩
    intro n
    rw [Function.iterate_add_apply,
      (by decide : drawStepP^[21] (⟨0, 0⟩ : DrawState) = ⟨0, 0⟩)]

/-- Witness for `anim_frames_amended` at tilt 0 and the initial animation
state. -/
theorem anim_frames_amended_wit :
    ((⟨0, 0⟩ : DrawState).img ≤ 2 ∧ (drawStep 0 ⟨0, 0⟩).img ≤ 2) ∧
      (-80 < (0 : ℤ) ∧ (drawStep 0)^[21] ⟨0, 0⟩ = (⟨0, 0⟩ : DrawState)) :=
  ⟨⟨by decide, anim_frames_amended.1 0 ⟨0, 0⟩ (by decide)⟩,
    ⟨by decide, (anim_frames_amended.2 0 (by decide)).1⟩⟩

lemma birdDraw_kin (b : Bird) : birdKin (birdDraw b) = birdKin b := rfl

lemma foldl_tick_kin (pipeW pipeH W : ℤ) (hs : List ℤ) (s : GameState) :
    birdKin ((hs.foldl (fun s h => gameTick pipeW pipeH W h s) s).bird) = birdKin s.bird := by
  induction hs generalizing s with
  | nil => rfl
  | cons h t ih =>
    show birdKin ((t.foldl _ (gameTick pipeW pipeH W h s)).bird) = _
    rw [ih (gameTick pipeW pipeH W h s)]
    exact birdDraw_kin s.bird

lemma runGame_kin (pipeW pipeH W h0 : ℤ) (hs : List ℤ) :
    birdKin (runGame pipeW pipeH W h0 hs).bird = birdKin (birdInit 230 350) :=
  foldl_tick_kin pipeW pipeH W hs (gameInit pipeH W h0)

/-- C10: no iteration of the analyzed game loop calls `Bird.jump` or
`Bird.move` (only `Bird.draw` runs, which touches just the animation fields),
so along any run of any length the avatar's kinematic state is unchanged: it
stays at (230, 350) with tilt 0, velocity 0, tick count 0 and jump reference
height 350. -/
theorem loop_bird_kinematics_const (pipeW pipeH W h0 : ℤ) (hs : List ℤ) :
    (runGame pipeW pipeH W h0 hs).bird.x = 230
    ∧ (runGame pipeW pipeH W h0 hs).bird.y = 350
    ∧ (runGame pipeW pipeH W h0 hs).bird.tilt = 0
    ∧ (runGame pipeW pipeH W h0 hs).bird.tick_count = 0
    ∧ (runGame pipeW pipeH W h0 hs).bird.vel = 0
    ∧ (runGame pipeW pipeH W h0 hs).bird.height = 350 := by
  have h := runGame_kin pipeW pipeH W h0 hs
  simp only [birdKin, birdInit, Prod.mk.injEq] at h
  exact ⟨h.1, h.2.1, h.2.2.1, h.2.2.2.1, h.2.2.2.2.1, h.2.2.2.2.2⟩

/-- C4 (counterexample): running one tick of the actual game loop from the
initial state does not raise the avatar's y by 1.5: `bird.move()` is commented
out in `main`, so y is still 350 (and the tilt still 0) after tick 1. -/
theorem tick1_y_unchanged_cex :
    (runGame 104 640 672 250 [300]).bird.y ≠ 350 + 3/2
    ∧ (runGame 104 640 672 250 [300]).bird.y = 350
    ∧ (runGame 104 640 672 250 [300]).bird.tilt = 0 := by
  have h := runGame_kin 104 640 672 250 [300]
  simp only [birdKin, birdInit, Prod.mk.injEq] at h
  refine ⟨?_, h.2.1, h.2.2.1⟩
  rw [h.2.1]
  norm_num

/-- C4 (amended): the game loop never advances the avatar, so after tick 1 the
avatar's y is still 350 and its tilt still 0; a direct call to `Bird.move` on
the freshly created `Bird(230, 350)` would add 1.5 to y, but would set the
tilt to 25 (the upward-snap branch applies because y is within 50 units of the
jump reference height), not move it toward -20. -/
theorem tick1_amended (pipeW pipeH W h0 h1 : ℤ) :
    (runGame pipeW pipeH W h0 [h1]).bird.y = 350
    ∧ (runGame pipeW pipeH W h0 [h1]).bird.tilt = 0
    ∧ (birdMove (birdInit 230 350)).y = 350 + 3/2
    ∧ (birdMove (birdInit 230 350)).tilt = 25 := by
  have h := runGame_kin pipeW pipeH W h0 [h1]
  simp only [birdKin, birdInit, Prod.mk.injEq] at h
  refine ⟨h.2.1, h.2.2.1, ?_, ?_⟩ <;>
    norm_num [birdMove, disp, dispClamp, dispRaw, birdInit]

lemma runGame_bird_x (pipeW pipeH W h0 : ℤ) (hs : List ℤ) :
    (runGame pipeW pipeH W h0 hs).bird.x = 230 := by
  have h := runGame_kin pipeW pipeH W h0 hs
  simp only [birdKin, birdInit, Prod.mk.injEq] at h
  exact h.1

lemma gameTick_pipes_eq (pipeW pipeH W newH : ℤ) (s : GameState) :
    (gameTick pipeW pipeH W newH s).pipes =
      (s.pipes.filter fun p => !decide (p.x + pipeW < 0)).map (tickPipe s.bird.x)
        ++ (if s.pipes.any (firstPass s.bird.x) then [mkPipe pipeH 600 newH] else []) := by
  unfold gameTick
  dsimp only
  congr 1
  induction s.pipes with
  | nil => rfl
  | cons p l ih =>
    by_cases h : p.x + pipeW < 0 <;> simp [h, ih]

/-- C7: in every loop tick a pipe is dropped from the active list exactly when
its pre-move x plus the pipe image width is negative (its trailing edge has
left the viewport): the surviving pipes are precisely the pipes failing that
test, each advanced by one tick, followed by the possibly spawned pipe. -/
theorem pipe_removal_iff (pipeW pipeH W newH : ℤ) (s : GameState) :
    (gameTick pipeW pipeH W newH s).pipes =
      (s.pipes.filter fun p => !decide (p.x + pipeW < 0)).map (tickPipe s.bird.x)
        ++ (if s.pipes.any (firstPass s.bird.x) then [mkPipe pipeH 600 newH] else []) :=
  gameTick_pipes_eq pipeW pipeH W newH s

lemma pipesInv_init (pipeH h0 : ℤ) : PipesInv [mkPipe pipeH 600 h0] := by
  constructor
  · intro p hp
    rw [List.mem_singleton] at hp
    subst hp
    refine ⟨by norm_num [mkPipe], by norm_num [mkPipe], fun _ => by norm_num [mkPipe]⟩
  · simp

lemma pipesInv_tick (pipeW pipeH newH : ℤ) (l : List Pipe) (h : PipesInv l) :
    PipesInv ((l.filter fun p => !decide (p.x + pipeW < 0)).map (tickPipe 230)
      ++ (if l.any (firstPass 230) then [mkPipe pipeH 600 newH] else [])) := by
  obtain ⟨hmem, hdist⟩ := h
  have hmemA : ∀ p ∈ (l.filter fun p => !decide (p.x + pipeW < 0)).map (tickPipe 230),
      5 ∣ p.x ∧ p.x ≤ 595 ∧ (p.passed = false → 225 ≤ p.x) := by
    intro p hp
    rw [List.mem_map] at hp
    obtain ⟨q, hq, rfl⟩ := hp
    have hql := List.mem_of_mem_filter hq
    obtain ⟨hdvd, hle, hpass⟩ := hmem q hql
    have hx : (tickPipe 230 q).x = q.x - 5 := rfl
    refine ⟨by omega, by omega, ?_⟩
    intro hnp
    have hqp : q.passed = false ∧ ¬ (q.x < 230) := by
      have : (q.passed || decide (q.x < 230)) = false := hnp
      simpa using this
    have := hpass hqp.1
    have hge : 230 ≤ q.x := by omega
    omega
  constructor
  · intro p hp
    rw [List.mem_append] at hp
    rcases hp with hp | hp
    · obtain ⟨h1, h2, h3⟩ := hmemA p hp
      exact ⟨h1, by omega, h3⟩
    · have : p = mkPipe pipeH 600 newH := by
        by_cases hc : l.any (firstPass 230) = true <;> simp [hc] at hp
        · exact hp
      subst this
      exact ⟨by norm_num [mkPipe], by norm_num [mkPipe], fun _ => by norm_num [mkPipe]⟩
  · rw [List.pairwise_append]
    refine ⟨?_, ?_, ?_⟩
    · rw [List.pairwise_map]
      have hsub : (l.filter fun p => !decide (p.x + pipeW < 0)).Pairwise
          (fun p q => p.x ≠ q.x) :=
        hdist.sublist (List.filter_sublist l)
      refine hsub.imp ?_
      intro a b hab
      show (tickPipe 230 a).x ≠ (tickPipe 230 b).x
      have hxa : (tickPipe 230 a).x = a.x - 5 := rfl
      have hxb : (tickPipe 230 b).x = b.x - 5 := rfl
      omega
    · by_cases hc : l.any (firstPass 230) = true <;> simp [hc]
    · intro a ha b hb
      have h595 := (hmemA a ha).2.1
      have : b = mkPipe pipeH 600 newH := by
        by_cases hc : l.any (firstPass 230) = true <;> simp [hc] at hb
        · exact hb
      subst this
      show a.x ≠ 600
      omega

lemma foldl_pipesInv (pipeW pipeH W : ℤ) (hs : List ℤ) (s : GameState)
    (hb : s.bird.x = 230) (hp : PipesInv s.pipes) :
    PipesInv ((hs.foldl (fun s h => gameTick pipeW pipeH W h s) s).pipes) := by
  induction hs generalizing s with
  | nil => exact hp
  | cons h t ih =>
    show PipesInv ((t.foldl _ (gameTick pipeW pipeH W h s)).pipes)
    apply ih
    · show (birdDraw s.bird).x = 230
      rw [show (birdDraw s.bird).x = s.bird.x from rfl, hb]
    · rw [gameTick_pipes_eq, hb]
      exact pipesInv_tick pipeW pipeH h s.pipes hp

lemma runGame_pipesInv (pipeW pipeH W h0 : ℤ) (hs : List ℤ) :
    PipesInv (runGame pipeW pipeH W h0 hs).pipes :=
  foldl_pipesInv pipeW pipeH W hs (gameInit pipeH W h0) rfl (pipesInv_init pipeH h0)

lemma countP_le_one_of_unique (l : List Pipe) (P : Pipe → Bool)
    (hdist : l.Pairwise fun p q => p.x ≠ q.x)
    (hval : ∀ p ∈ l, P p = true → p.x = 225) :
    l.countP P ≤ 1 := by
  induction l with
  | nil => simp
  | cons a t ih =>
    rw [List.countP_cons]
    rcases List.pairwise_cons.mp hdist with ⟨ha, ht⟩
    by_cases hPa : P a = true
    · have hz : t.countP P = 0 := by
        rw [List.countP_eq_zero]
        intro b hb hPb
        exact ha b hb (by
          rw [hval a (List.mem_cons_self a t) hPa, hval b (List.mem_cons_of_mem a hb) hPb])
      simp [hPa, hz]
    · have h0 : t.countP P ≤ 1 :=
        ih ht (fun p hp => hval p (List.mem_cons_of_mem a hp))
      simp only [hPa]
      simpa using h0

/-- C3: along the actual run of the game loop, at most one pipe is first
passed in any tick (the x coordinates are distinct multiples of 5 and a
first-passed pipe must sit exactly at x = 225); the next tick adds exactly the
number of first-time passes to the score; exactly that many (one or zero)
pipes with x = 600 are present in the post-tick list, i.e. one fresh pipe is
appended at x = 600 exactly when a pass happened; and the score never
decreases on any tick from any state. -/
theorem score_pass_spawn (pipeW pipeH W h0 newH : ℤ) (hs : List ℤ) :
    (runGame pipeW pipeH W h0 hs).pipes.countP
        (firstPass (runGame pipeW pipeH W h0 hs).bird.x) ≤ 1
    ∧ (gameTick pipeW pipeH W newH (runGame pipeW pipeH W h0 hs)).score
        = (runGame pipeW pipeH W h0 hs).score
          + (runGame pipeW pipeH W h0 hs).pipes.countP
              (firstPass (runGame pipeW pipeH W h0 hs).bird.x)
    ∧ (gameTick pipeW pipeH W newH (runGame pipeW pipeH W h0 hs)).pipes.countP
        (fun p => decide (p.x = 600))
        = (runGame pipeW pipeH W h0 hs).pipes.countP
            (firstPass (runGame pipeW pipeH W h0 hs).bird.x)
    ∧ ∀ t : GameState, t.score ≤ (gameTick pipeW pipeH W newH t).score := by
  have hb := runGame_bird_x pipeW pipeH W h0 hs
  obtain ⟨hmem, hdist⟩ := runGame_pipesInv pipeW pipeH W h0 hs
  set s := runGame pipeW pipeH W h0 hs with hsdef
  rw [hb]
  have hval : ∀ p ∈ s.pipes, firstPass 230 p = true → p.x = 225 := by
    intro p hp hfp
    obtain ⟨hdvd, hle, hpass⟩ := hmem p hp
    have hfp2 : p.passed = false ∧ p.x < 230 := by simpa [firstPass] using hfp
    have := hpass hfp2.1
    omega
  have hc1 : s.pipes.countP (firstPass 230) ≤ 1 :=
    countP_le_one_of_unique s.pipes (firstPass 230) hdist hval
  have hkey : (if s.pipes.any (firstPass 230) = true then 1 else 0)
      = s.pipes.countP (firstPass 230) := by
    by_cases hany : s.pipes.any (firstPass 230) = true
    · have hpos : 0 < s.pipes.countP (firstPass 230) := by
        rw [List.countP_pos_iff]
        obtain ⟨a, ha, hpa⟩ := List.any_eq_true.mp hany
        exact ⟨a, ha, hpa⟩
      rw [if_pos hany]
      omega
    · have h0 : s.pipes.countP (firstPass 230) = 0 := by
        rw [List.countP_eq_zero]
        intro a ha hpa
        exact hany (List.any_eq_true.mpr ⟨a, ha, hpa⟩)
      rw [if_neg hany, h0]
  refine ⟨hc1, ?_, ?_, ?_⟩
  · have hscore : (gameTick pipeW pipeH W newH s).score
        = s.score + (if s.pipes.any (firstPass s.bird.x) = true then 1 else 0) := rfl
    rw [hscore, hb, hkey]
  · rw [gameTick_pipes_eq pipeW pipeH W newH s, hb, List.countP_append]
    have hA : ((s.pipes.filter fun p => !decide (p.x + pipeW < 0)).map
        (tickPipe 230)).countP (fun p => decide (p.x = 600)) = 0 := by
      rw [List.countP_eq_zero]
      intro p hp hp600
      rw [List.mem_map] at hp
      obtain ⟨q, hq, rfl⟩ := hp
      have hle := (hmem q (List.mem_of_mem_filter hq)).2.1
      have hx : (tickPipe 230 q).x = q.x - 5 := rfl
      have h600 : (tickPipe 230 q).x = 600 := by simpa using hp600
      omega
    rw [hA]
    have hB : (if s.pipes.any (firstPass 230) = true
          then [mkPipe pipeH 600 newH] else []).countP (fun p => decide (p.x = 600))
        = (if s.pipes.any (firstPass 230) = true then 1 else 0) := by
      by_cases hany : s.pipes.any (firstPass 230) = true <;>
        simp [hany, mkPipe]
    rw [hB, hkey]
    omega
  · intro t
    have ht : (gameTick pipeW pipeH W newH t).score
        = t.score + (if t.pipes.any (firstPass t.bird.x) = true then 1 else 0) := rfl
    rw [ht]
    split_ifs <;> omega

lemma foldl_gap (pipeW pipeH W : ℤ) (hs : List ℤ) (s : GameState)
    (hhs : ∀ h ∈ hs, 50 ≤ h ∧ h < 450)
    (hp : ∀ p ∈ s.pipes, (50 ≤ p.height ∧ p.height < 450)
      ∧ p.top + pipeH = p.height ∧ p.height = p.bottom - 200) :
    ∀ p ∈ (hs.foldl (fun s h => gameTick pipeW pipeH W h s) s).pipes,
      (50 ≤ p.height ∧ p.height < 450)
        ∧ p.top + pipeH = p.height ∧ p.height = p.bottom - 200 := by
  induction hs generalizing s with
  | nil => exact hp
  | cons h t ih =>
    show ∀ p ∈ (t.foldl _ (gameTick pipeW pipeH W h s)).pipes, _
    apply ih
    · intro a ha
      exact hhs a (List.mem_cons_of_mem h ha)
    · rw [gameTick_pipes_eq]
      intro p hp2
      rw [List.mem_append] at hp2
      rcases hp2 with hp2 | hp2
      · rw [List.mem_map] at hp2
        obtain ⟨q, hq, rfl⟩ := hp2
        have hq2 := hp q (List.mem_of_mem_filter hq)
        have e1 : (tickPipe s.bird.x q).height = q.height := rfl
        have e2 : (tickPipe s.bird.x q).top = q.top := rfl
        have e3 : (tickPipe s.bird.x q).bottom = q.bottom := rfl
        rw [e1, e2, e3]
        exact hq2
      · have hp3 : p = mkPipe pipeH 600 h := by
          by_cases hc : s.pipes.any (firstPass s.bird.x) = true <;> simp [hc] at hp2
          · exact hp2
        subst hp3
        have hh := hhs h (List.mem_cons_self h t)
        refine ⟨⟨hh.1, hh.2⟩, by norm_num [mkPipe], by norm_num [mkPipe]⟩

/-- C6: provided every sampled gap height lies in [50, 450) (the guarantee of
`random.randrange(50, 450)`), every pipe in every state reachable by the game
loop keeps a height in [50, 450) and satisfies
`top + pipe-image-height = height = bottom - 200` (200 being the `GAP`
constant); moreover `Pipe.move` changes none of `height`, `top`, `bottom`, so
the relation is preserved by every operation. -/
theorem pipe_gap_invariant (pipeW pipeH W h0 : ℤ) (hs : List ℤ)
    (hh0 : 50 ≤ h0 ∧ h0 < 450) (hhs : ∀ h ∈ hs, 50 ≤ h ∧ h < 450) :
    (∀ p ∈ (runGame pipeW pipeH W h0 hs).pipes,
      (50 ≤ p.height ∧ p.height < 450)
        ∧ p.top + pipeH = p.height ∧ p.height = p.bottom - 200)
    ∧ ∀ q : Pipe, (pipeMove q).height = q.height
        ∧ (pipeMove q).top = q.top ∧ (pipeMove q).bottom = q.bottom := by
  constructor
  · apply foldl_gap pipeW pipeH W hs (gameInit pipeH W h0) hhs
    intro p hp
    have : p = mkPipe pipeH 600 h0 := by
      simpa [gameInit] using hp
    subst this
    exact ⟨⟨by norm_num [mkPipe, hh0.1], by norm_num [mkPipe, hh0.2]⟩,
      by norm_num [mkPipe], by norm_num [mkPipe]⟩
  · intro q
    exact ⟨rfl, rfl, rfl⟩

/-- Witness for `pipe_gap_invariant`: a concrete two-tick run with sampled
heights 250 and 300. -/
theorem pipe_gap_invariant_wit :
    ((50 ≤ (250:ℤ) ∧ (250:ℤ) < 450) ∧ (∀ h ∈ ([300] : List ℤ), 50 ≤ h ∧ h < 450))
    ∧ ((∀ p ∈ (runGame 104 640 672 250 [300]).pipes,
        (50 ≤ p.height ∧ p.height < 450)
          ∧ p.top + 640 = p.height ∧ p.height = p.bottom - 200)
      ∧ ∀ q : Pipe, (pipeMove q).height = q.height
          ∧ (pipeMove q).top = q.top ∧ (pipeMove q).bottom = q.bottom) :=
  ⟨⟨by norm_num, by decide⟩,
    pipe_gap_invariant 104 640 672 250 [300] (by norm_num) (by decide)⟩

lemma baseInv_init (W : ℤ) (hW : 5 ≤ W) : BaseInv W (baseInit W 730) := by
  unfold BaseInv baseInit
  dsimp only
  omega

lemma baseInv_move (W : ℤ) (hW : 5 ≤ W) (s : BaseState) (h : BaseInv W s) :
    BaseInv W (baseMove W s) := by
  obtain ⟨hd, h1, h2⟩ := h
  unfold BaseInv baseMove
  dsimp only
  split_ifs <;> omega

lemma baseInv_iter (W : ℤ) (hW : 5 ≤ W) (n : ℕ) :
    BaseInv W ((baseMove W)^[n] (baseInit W 730)) := by
  induction n with
  | zero => exact baseInv_init W hW
  | succ n ih =>
    rw [Function.iterate_succ_apply']
    exact baseInv_move W hW _ ih

/-- C8: for any tile width W >= VEL = 5, after any number of `Base.move`
calls from `Base(730)` the two segment offsets differ by exactly one tile
width (so the tiling shows no gap and no overlap); and each `Base.move`
decrements an offset by the fixed velocity 5, repositioning it to the other
segment's offset plus W exactly when its own right edge (offset + W) has
crossed below x = 0 (the second segment's test reading the already-updated
first offset, as in the source). -/
theorem base_offsets_diff (W : ℤ) (hW : 5 ≤ W) (n : ℕ) :
    (((baseMove W)^[n] (baseInit W 730)).x2 - ((baseMove W)^[n] (baseInit W 730)).x1 = W
      ∨ ((baseMove W)^[n] (baseInit W 730)).x1 - ((baseMove W)^[n] (baseInit W 730)).x2 = W)
    ∧ ∀ s : BaseState,
        (baseMove W s).x1 = (if s.x1 - 5 + W < 0 then s.x2 - 5 + W else s.x1 - 5)
        ∧ (baseMove W s).x2 =
            (if s.x2 - 5 + W < 0 then (baseMove W s).x1 + W else s.x2 - 5) :=
  ⟨(baseInv_iter W hW n).1, fun _ => ⟨rfl, rfl⟩⟩

/-- Witness for `base_offsets_diff` at tile width 672 after 3 ticks. -/
theorem base_offsets_diff_wit :
    (5 ≤ (672:ℤ))
    ∧ ((((baseMove 672)^[3] (baseInit 672 730)).x2
          - ((baseMove 672)^[3] (baseInit 672 730)).x1 = 672
        ∨ ((baseMove 672)^[3] (baseInit 672 730)).x1
          - ((baseMove 672)^[3] (baseInit 672 730)).x2 = 672)
      ∧ ∀ s : BaseState,
          (baseMove 672 s).x1 = (if s.x1 - 5 + 672 < 0 then s.x2 - 5 + 672 else s.x1 - 5)
          ∧ (baseMove 672 s).x2 =
              (if s.x2 - 5 + 672 < 0 then (baseMove 672 s).x1 + 672 else s.x2 - 5)) :=
  ⟨by norm_num, base_offsets_diff 672 (by norm_num) 3⟩

/-- C9: `Pipe.collide` returns true exactly when the bird mask overlaps the
top pipe mask at offset `(pipe.x - bird.x, top - round(bird.y))` or the bottom
pipe mask at offset `(pipe.x - bird.x, bottom - round(bird.y))`; in
particular, whenever neither mask pair shares an opaque pixel at those
offsets, it returns false even if the bounding rectangles of bird and top
pipe overlap - the test is exact mask overlap, not bounding-box. -/
theorem collide_mask_exact :
    (∀ (bm tm botm : Mask) (b : Bird) (p : Pipe),
        pipeCollide bm tm botm b p = true ↔
          (maskOverlap bm tm (p.x - b.x, p.top - pyRound b.y) = true
            ∨ maskOverlap bm botm (p.x - b.x, p.bottom - pyRound b.y) = true))
    ∧ ∀ (bm tm botm : Mask) (b : Bird) (p : Pipe) (bw bh pw ph : ℤ),
        rectsOverlap b.x (pyRound b.y) bw bh p.x p.top pw ph →
        maskOverlap bm tm (p.x - b.x, p.top - pyRound b.y) = false →
        maskOverlap bm botm (p.x - b.x, p.bottom - pyRound b.y) = false →
        pipeCollide bm tm botm b p = false := by
  constructor
  · intro bm tm botm b p
    simp [pipeCollide]
  · intro bm tm botm b p bw bh pw ph hrect h1 h2
    simp [pipeCollide, h1, h2]

/-- Witness for `collide_mask_exact`: a bird of a single opaque pixel at
(0, 0) and a top pipe of a single opaque pixel at (1, 1), with 2-by-2
bounding rectangles that do overlap, yet no colliding pixels. -/
theorem collide_mask_exact_wit :
    rectsOverlap (birdInit 0 0).x (pyRound (birdInit 0 0).y) 2 2
        (mkPipe 2 0 2).x (mkPipe 2 0 2).top 2 2
    ∧ pipeCollide [(0, 0)] [(1, 1)] [(0, 0)] (birdInit 0 0) (mkPipe 2 0 2) = false := by
  have hr : pyRound (birdInit 0 0).y = 0 := by
    norm_num [pyRound, birdInit]
  have hx : (birdInit 0 0).x = 0 := rfl
  have hpx : (mkPipe 2 0 2).x = 0 := rfl
  have hpt : (mkPipe 2 0 2).top = 0 := rfl
  have hpb : (mkPipe 2 0 2).bottom = 202 := rfl
  constructor
  · rw [hx, hr, hpx, hpt]
    norm_num [rectsOverlap]
  · apply collide_mask_exact.2 [(0, 0)] [(1, 1)] [(0, 0)] (birdInit 0 0) (mkPipe 2 0 2) 2 2 2 2
    · rw [hx, hr, hpx, hpt]
      norm_num [rectsOverlap]
    · rw [show ((mkPipe 2 0 2).x - (birdInit 0 0).x, (mkPipe 2 0 2).top - pyRound (birdInit 0 0).y)
          = ((0:ℤ), (0:ℤ)) by rw [hx, hr, hpx, hpt]; norm_num [Prod.ext_iff]]
      decide
    · rw [show ((mkPipe 2 0 2).x - (birdInit 0 0).x, (mkPipe 2 0 2).bottom - pyRound (birdInit 0 0).y)
          = ((0:ℤ), (202:ℤ)) by rw [hx, hr, hpx, hpb]; norm_num [Prod.ext_iff]]
      decide
